import Mathlib

/-!
Verification of the memvid knowledge-graph service (python-service).

Shallow embedding of the core in Lean 4:
* Python strings are modelled as `List Char` (`Str`); `.lower()`, `.strip()`,
  `.split()` and substring containment (`in`) are modelled by executable
  functions on character lists.
* Python dicts (`self.entities`, `self.relationships`, `self.projects` of
  `MemvidKnowledgeGraph`) are modelled as insertion-ordered association
  lists whose key is the stored item's `id` field (which is how every write
  site keys them); `d[k] = v` is `dictReplace`, `del d[k]` is `dictErase`,
  `d.get(k)` / `k in d` are `dictFind` / its `isSome`.
* Python floats in the relevance scoring are modelled as exact rationals.
* FastAPI's `HTTPException(status_code, detail)` is modelled by the
  structure `HTTPException`; `detail` strings follow the source f-strings
  except that the single quotes around interpolated values are elided.
* `datetime.now().isoformat()` and `uuid.uuid4()` are modelled by explicit
  `now` / `freshId` parameters threaded into the operations.
-/

deriving instance DecidableEq for Except

namespace KG

/-- Python strings, modelled as lists of characters. -/
abbrev Str := List Char

/-- Conversion from Lean string literals into the model. -/
def str (s : String) : Str := s.data

/-- Python `str.lower()`. -/
def lower (s : Str) : Str := s.map Char.toLower

/-- Python `str.strip()`: drop leading and trailing whitespace. -/
def strip (s : Str) : Str :=
  ((s.dropWhile Char.isWhitespace).reverse.dropWhile Char.isWhitespace).reverse

/-- Helper for `pyWords`: accumulates the current word (reversed). -/
def splitWsAux : Str → Str → List Str
  | [], acc => if acc.isEmpty then [] else [acc.reverse]
  | c :: cs, acc =>
    if c.isWhitespace then
      if acc.isEmpty then splitWsAux cs [] else acc.reverse :: splitWsAux cs []
    else splitWsAux cs (c :: acc)

/-- Python `str.split()` with no separator: split on whitespace runs,
dropping empty tokens. -/
def pyWords (s : Str) : List Str := splitWsAux s []

/-- Python `needle in hay` on strings: contiguous substring containment. -/
def pyContains (needle hay : Str) : Bool := decide (needle <:+: hay)

/-- Python truthiness of an optional-string parameter (`if project_id:`):
`None` and the empty string are falsy. -/
def optTruthy : Option Str → Bool
  | none => false
  | some s => !s.isEmpty

/-- A stored observation dict (`{"id", "text", "addedBy", "createdAt"}`)
as appended by `add_observation` / carried in `Entity.observations`. -/
structure Obs where
  id : Str
  text : Str
  addedBy : Str
  createdAt : Str
deriving DecidableEq

/-- `app.models.schema.Entity` (pydantic). -/
structure Entity where
  id : Option Str
  name : Str
  type : Str
  description : Str
  observations : List Obs
  addedBy : Str
  createdAt : Option Str
  updatedAt : Option Str
  projectId : Str
deriving DecidableEq

/-- `app.models.schema.Relationship` (pydantic). -/
structure Relationship where
  id : Option Str
  sourceId : Str
  targetId : Str
  type : Str
  description : Option Str
  addedBy : Str
  createdAt : Option Str
  projectId : Str
deriving DecidableEq

/-- `app.models.schema.Project` (pydantic). -/
structure Project where
  id : Option Str
  name : Str
  description : Option Str
  createdAt : Option Str
  lastAccessed : Option Str
deriving DecidableEq

/-- The in-memory state of `MemvidKnowledgeGraph`: the three dicts, each as
an insertion-ordered list keyed by the item's `id` field. -/
structure Store where
  entities : List Entity
  relationships : List Relationship
  projects : List Project
deriving DecidableEq

/-- Dict write `d[k] = x`: replace in place if the key is present,
else append. -/
def dictReplace (key : α → Option Str) (k : Option Str) (x : α) : List α → List α
  | [] => [x]
  | y :: ys => if key y = k then x :: ys else y :: dictReplace key k x ys

/-- Dict read `d.get(k)` for a string key `k`. -/
def dictFind (key : α → Option Str) (k : Str) (l : List α) : Option α :=
  l.find? (fun y => decide (key y = some k))

/-- Dict deletion `del d[k]`: removes the (unique) entry with key `k`. -/
def dictErase (key : α → Option Str) (k : Option Str) (l : List α) : List α :=
  l.eraseP (fun y => decide (key y = k))

/-- `pydantic` constraints on `Entity` (all `min_length=1` fields). -/
def Entity.pydanticValid (e : Entity) : Bool :=
  !e.name.isEmpty && !e.type.isEmpty && !e.description.isEmpty && !e.addedBy.isEmpty

/-- `pydantic` constraints on `Relationship`. -/
def Relationship.pydanticValid (r : Relationship) : Bool :=
  !r.sourceId.isEmpty && !r.targetId.isEmpty && !r.type.isEmpty && !r.addedBy.isEmpty

/-- `pydantic` constraints on `Project`. -/
def Project.pydanticValid (p : Project) : Bool :=
  !p.name.isEmpty

/-- The snapshot document written by `_save_metadata`: the three collections
in dict-value order plus an update timestamp. -/
structure Snapshot where
  entities : List Entity
  relationships : List Relationship
  projects : List Project
  updatedAt : Str
deriving DecidableEq

/-- `MemvidKnowledgeGraph._save_metadata`: serialize the three dicts
(in value order, field by field) into the snapshot document. -/
def saveMetadata (s : Store) (now : Str) : Snapshot :=
  ⟨s.entities, s.relationships, s.projects, now⟩

/-- One collection-loading loop of `_load_metadata`: items are re-validated
by the pydantic constructor and inserted keyed by their `id`; the first
invalid item raises, aborting the load at that point (the flag records
whether the loop completed). -/
def loadList (valid : α → Bool) (key : α → Option Str) :
    List α → List α → List α × Bool
  | [], dict => (dict, true)
  | x :: xs, dict =>
    if valid x then loadList valid key xs (dictReplace key (key x) x dict)
    else (dict, false)

/-- `MemvidKnowledgeGraph._load_metadata` on a fresh store: load entities,
then relationships, then projects; an exception (invalid item) aborts the
remainder of the load but keeps what was already inserted. -/
def loadMetadata (snap : Snapshot) : Store :=
  let (es, ok1) := loadList Entity.pydanticValid Entity.id snap.entities []
  if !ok1 then ⟨es, [], []⟩
  else
    let (rs, ok2) := loadList Relationship.pydanticValid Relationship.id snap.relationships []
    if !ok2 then ⟨es, rs, []⟩
    else
      let (ps, _) := loadList Project.pydanticValid Project.id snap.projects []
      ⟨es, rs, ps⟩

/-- The project created by `_ensure_default_project`. -/
def defaultProject (now : Str) : Project :=
  { id := some (str "default")
    name := str "Default Project"
    description := some (str "Default project for entities without specific project assignment")
    createdAt := some now
    lastAccessed := none }

/-- `MemvidKnowledgeGraph._ensure_default_project`. -/
def ensureDefaultProject (s : Store) (now : Str) : Store :=
  if (dictFind Project.id (str "default") s.projects).isSome then s
  else { s with projects := dictReplace Project.id (some (str "default")) (defaultProject now) s.projects }

/-- `MemvidKnowledgeGraph.create_entity`: assign the id if absent or empty
(`entity.id = entity.id or str(uuid.uuid4())`), stamp `createdAt` and
`updatedAt` with the current time, and write the entity into the dict
under `entity.id`. The snapshot write and index rebuild have no effect on
the in-memory state. -/
def createEntity (s : Store) (e : Entity) (now freshId : Str) : Entity × Store :=
  let newId : Str :=
    match e.id with
    | some i => if i.isEmpty then freshId else i
    | none => freshId
  let e' := { e with id := some newId, createdAt := some now, updatedAt := some now }
  (e', { s with entities := dictReplace Entity.id (some newId) e' s.entities })

/-- Python `setattr(entity, key, value)` for a string-valued `value`, after
the `hasattr(entity, key)` guard: keys naming a (string-typed) attribute are
written, unknown keys are ignored. (`observations` is list-valued and is
never paired with a string value by any caller, so it is not representable
here.) -/
def setattrStr (e : Entity) (k v : Str) : Entity :=
  if k = str "id" then { e with id := some v }
  else if k = str "name" then { e with name := v }
  else if k = str "type" then { e with type := v }
  else if k = str "description" then { e with description := v }
  else if k = str "addedBy" then { e with addedBy := v }
  else if k = str "createdAt" then { e with createdAt := some v }
  else if k = str "updatedAt" then { e with updatedAt := some v }
  else if k = str "projectId" then { e with projectId := v }
  else e

/-- `MemvidKnowledgeGraph.update_entity`: `None` (and unchanged store) when
the id is absent; otherwise apply the updates via `setattr` in field-map
order, stamp `updatedAt`, and write back under the original key. -/
def updateEntityStore (s : Store) (k : Str) (updates : List (Str × Str)) (now : Str) :
    Option Entity × Store :=
  match dictFind Entity.id k s.entities with
  | none => (none, s)
  | some e =>
    let e1 := updates.foldl (fun acc kv => setattrStr acc kv.1 kv.2) e
    let e2 := { e1 with updatedAt := some now }
    (some e2, { s with entities := dictReplace Entity.id (some k) e2 s.entities })

/-- Whether a relationship is incident to the entity with id `k`
(`rel.sourceId == entity_id or rel.targetId == entity_id`). -/
def incident (k : Str) (r : Relationship) : Bool :=
  decide (r.sourceId = k) || decide (r.targetId = k)

/-- `MemvidKnowledgeGraph.delete_entity`: `False` when absent; otherwise
delete the entity, collect the ids of all incident relationships, and
delete each of those keys from the relationship dict. -/
def deleteEntity (s : Store) (k : Str) : Bool × Store :=
  if (dictFind Entity.id k s.entities).isNone then (false, s)
  else
    let ents := dictErase Entity.id (some k) s.entities
    let relsToDelete := (s.relationships.filter (incident k)).map Relationship.id
    let rels := relsToDelete.foldl (fun acc rid => dictErase Relationship.id rid acc) s.relationships
    (true, { s with entities := ents, relationships := rels })

/-- `MemvidKnowledgeGraph.delete_project`: `False` when absent; a
`ValueError` (modelled as `Except.error` carrying the message) for the
default project; otherwise delete the project and cascade over the
entities and relationships scoped to it. -/
def deleteProjectStore (s : Store) (pid : Str) : Except Str (Bool × Store) :=
  if (dictFind Project.id pid s.projects).isNone then .ok (false, s)
  else if pid = str "default" then .error (str "Cannot delete the default project.")
  else
    let projs := dictErase Project.id (some pid) s.projects
    let entsToDelete := (s.entities.filter (fun e => decide (e.projectId = pid))).map Entity.id
    let ents := entsToDelete.foldl (fun acc k => dictErase Entity.id k acc) s.entities
    let relsToDelete := (s.relationships.filter (fun r => decide (r.projectId = pid))).map Relationship.id
    let rels := relsToDelete.foldl (fun acc k => dictErase Relationship.id k acc) s.relationships
    .ok (true, ⟨ents, rels, projs⟩)

/-- FastAPI `HTTPException(status_code, detail)`. -/
structure HTTPException where
  status : Nat
  detail : Str
deriving DecidableEq

/-- `app.utils.validators.validate_project_id`: 400 when empty, 404 when
the project does not exist, otherwise no error. -/
def validateProjectId (pid : Str) (projects : List Project) : Option HTTPException :=
  if pid.isEmpty then some ⟨400, str "Project ID is required"⟩
  else if (dictFind Project.id pid projects).isNone then
    some ⟨404, str "Project " ++ pid ++ str " not found. Create the project first."⟩
  else none

/-- `app.utils.validators.validate_entity_id`: 400 when empty, 404 when
the entity does not exist, otherwise no error. -/
def validateEntityId (k : Str) (entities : List Entity) : Option HTTPException :=
  if k.isEmpty then some ⟨400, str "Entity ID is required"⟩
  else if (dictFind Entity.id k entities).isNone then
    some ⟨404, str "Entity " ++ k ++ str " not found"⟩
  else none

/-- `app.utils.validators.validate_entity_creation`: reject empty (after
strip) name/type/description/addedBy with 400; validate a non-default
project id against the project dict; return the cleaned (stripped) data. -/
def validateEntityCreation (e : Entity) (projects : List Project) :
    Except HTTPException Entity :=
  if (strip e.name).isEmpty then
    .error ⟨400, str "Entity name is required and cannot be empty"⟩
  else if (strip e.type).isEmpty then
    .error ⟨400, str "Entity type is required and cannot be empty"⟩
  else if (strip e.description).isEmpty then
    .error ⟨400, str "Entity description is required and cannot be empty"⟩
  else if (strip e.addedBy).isEmpty then
    .error ⟨400, str "addedBy field is required and cannot be empty"⟩
  else
    match (if e.projectId ≠ str "default" then validateProjectId e.projectId projects else none) with
    | some err => .error err
    | none =>
      .ok { e with
              name := strip e.name
              type := strip e.type
              description := strip e.description
              addedBy := strip e.addedBy }

/-- `app.utils.validators.validate_duplicate_entity`: 409 when some stored
entity has the same lower-cased name, the same lower-cased type and the
same project id as the (cleaned) creation data. -/
def validateDuplicateEntity (e : Entity) (entities : List Entity) : Option HTTPException :=
  if entities.any (fun ex =>
      decide (lower ex.name = lower e.name) &&
      decide (lower ex.type = lower e.type) &&
      decide (ex.projectId = e.projectId)) then
    some ⟨409, str "Entity " ++ e.name ++ str " of type " ++ e.type ++
               str " already exists in project " ++ e.projectId⟩
  else none

/-- `POST /api/entities` (`app.api.entities.create_entity`): validate and
clean the draft, check for duplicates, then create through the store. The
pydantic re-validation `Entity(**entity_data)` always succeeds on cleaned
data (all required fields are non-empty after strip) and reconstructs the
same field values. Returns the response together with the store left
behind by the call. -/
def createEntityApi (s : Store) (req : Entity) (now freshId : Str) :
    Except HTTPException Entity × Store :=
  match validateEntityCreation req s.projects with
  | .error err => (.error err, s)
  | .ok data =>
    match validateDuplicateEntity data s.entities with
    | some err => (.error err, s)
    | none =>
      let (newE, s') := createEntity s data now freshId
      (.ok newE, s')

/-- The allowed-field whitelist of `PUT /api/entities/{id}`. -/
def allowedUpdateFields : List Str :=
  [str "name", str "type", str "description", str "projectId"]

/-- The textual fields whose values are strip-validated by the update
endpoint. -/
def textualUpdateFields : List Str :=
  [str "name", str "type", str "description"]

/-- Python dict lookup in a (unique-keyed) field map. -/
def fieldGet (updates : List (Str × Str)) (k : Str) : Option Str :=
  (updates.find? (fun kv => decide (kv.1 = k))).map Prod.snd

/-- `PUT /api/entities/{id}` (`app.api.entities.update_entity`): validate
the entity id; reject any field outside the whitelist with 400; require
non-empty textual values (replacing them by their stripped form); validate
a non-default target project; then update through the store. Error
`detail` strings other than the 404 ones are abbreviated. -/
def updateEntityApi (s : Store) (k : Str) (updates : List (Str × Str)) (now : Str) :
    Except HTTPException Entity × Store :=
  match validateEntityId k s.entities with
  | some err => (.error err, s)
  | none =>
    if updates.any (fun kv => decide (kv.1 ∉ allowedUpdateFields)) then
      (.error ⟨400, str "Invalid fields"⟩, s)
    else if updates.any (fun kv => decide (kv.1 ∈ textualUpdateFields) && (strip kv.2).isEmpty) then
      (.error ⟨400, str "must be a non-empty string"⟩, s)
    else
      let updates' := updates.map (fun kv =>
        if decide (kv.1 ∈ textualUpdateFields) then (kv.1, strip kv.2) else kv)
      match (match fieldGet updates' (str "projectId") with
             | some v => if v ≠ str "default" then validateProjectId v s.projects else none
             | none => none) with
      | some err => (.error err, s)
      | none =>
        match updateEntityStore s k updates' now with
        | (none, s') => (.error ⟨404, str "Entity not found"⟩, s')
        | (some e, s') => (.ok e, s')

/-- `DELETE /api/projects/{id}` (`app.api.projects.delete_project`):
400 for a missing/blank id, 400 for the protected default project, 404 for
an unknown project, and otherwise the cascading store delete (whose
`ValueError` would be mapped to a 400). -/
def deleteProjectApi (s : Store) (pid : Str) : Except HTTPException Str × Store :=
  if pid.isEmpty || (strip pid).isEmpty then
    (.error ⟨400, str "Project ID is required"⟩, s)
  else
    let pid := strip pid
    if pid = str "default" then
      (.error ⟨400, str "Cannot delete the default project"⟩, s)
    else if (dictFind Project.id pid s.projects).isNone then
      (.error ⟨404, str "Project with ID " ++ pid ++ str " not found"⟩, s)
    else
      match deleteProjectStore s pid with
      | .error msg => (.error ⟨400, msg⟩, s)
      | .ok (true, s') =>
        (.ok (str "Project " ++ pid ++ str " and its contents deleted successfully"), s')
      | .ok (false, s') =>
        (.error ⟨404, str "Project with ID " ++ pid ++ str " not found"⟩, s')

/-! ### Search engine (`MemvidKnowledgeGraph.search_entities`) -/

/-- `app.config.settings.Settings.MIN_RELEVANCE_SCORE`. -/
def MIN_RELEVANCE_SCORE : ℚ := 0.5

/-- The combined text of an entity used for word-overlap scoring:
`f"{name} {description} {' '.join(observation texts)}"`. -/
def entityText (e : Entity) : Str :=
  e.name ++ [' '] ++ e.description ++ [' '] ++
    (match e.observations.map Obs.text with
     | [] => []
     | t :: ts => ts.foldl (fun acc u => acc ++ [' '] ++ u) t)

/-- `set(query_lower.split())` etc.: the token set of a string, as a
duplicate-free list. -/
def wordSet (s : Str) : List Str := (pyWords s).dedup

/-- `len(query_words.intersection(entity_words))`: the number of distinct
query words that also occur among the entity's tokens. -/
def overlapCount (q e : Str) : Nat :=
  ((wordSet q).filter (fun w => decide (w ∈ wordSet e))).length

/-- Word-overlap score contribution shared by both search paths:
`len(common_words) / len(query_words)` (0 when there are no common
words). -/
def overlapFraction (qLower : Str) (e : Entity) : ℚ :=
  if overlapCount qLower (lower (entityText e)) = 0 then 0
  else (overlapCount qLower (lower (entityText e)) : ℚ) / ((wordSet qLower).length : ℚ)

/-- The phrase-match component of the strict (retriever-available) scoring
path: 1.0 for a name hit, else 0.8 for a description hit, else 0.6 for an
observation hit, else 0. -/
def strictPhraseScore (qLower : Str) (e : Entity) : ℚ :=
  if pyContains qLower (lower e.name) then 1.0
  else if pyContains qLower (lower e.description) then 0.8
  else if e.observations.any (fun o => pyContains qLower (lower o.text)) then 0.6
  else 0

/-- The full strict-path relevance score: phrase component plus, only when
the phrase component fired (`if score > 0`), a word-overlap bonus of
`len(common)/len(query_words) * 0.3`. -/
def strictScore (qLower : Str) (e : Entity) : ℚ :=
  let ps := strictPhraseScore qLower e
  ps + (if 0 < ps then overlapFraction qLower e * 0.3 else 0)

/-- The phrase-match component of the fallback (no-retriever) scoring
path: 0.3 for a name hit, else 0.2 for a description hit, else 0.1 for an
observation hit, else 0. -/
def fallbackPhraseScore (qLower : Str) (e : Entity) : ℚ :=
  if pyContains qLower (lower e.name) then 0.3
  else if pyContains qLower (lower e.description) then 0.2
  else if e.observations.any (fun o => pyContains qLower (lower o.text)) then 0.1
  else 0

/-- The full fallback-path relevance score: word overlap weighted 0.6 plus
the (smaller) phrase-match component. -/
def fallbackScore (qLower : Str) (e : Entity) : ℚ :=
  overlapFraction qLower e * 0.6 + fallbackPhraseScore qLower e

/-- The project-scope test of the search loops
(`if project_id and entity.projectId != project_id: continue`). -/
def inScope (projectId : Option Str) (e : Entity) : Bool :=
  !(optTruthy projectId && decide (e.projectId ≠ projectId.getD []))

/-- Descending comparison used to model
`results.sort(key=lambda x: x['_relevance_score'], reverse=True)`
(a stable descending sort). -/
def scoreOrder (a b : Entity × ℚ) : Bool := decide (b.2 ≤ a.2)

/-- `MemvidKnowledgeGraph.search_entities`. With no retriever the fallback
scoring (word overlap 0.6 plus small phrase bonuses, keeping any positive
score) runs; with a retriever the strict scoring (phrase-anchored with
overlap bonus, cut at `MIN_RELEVANCE_SCORE`) runs. Either way results are
sorted by descending score and truncated to `limit`. Each hit is the
entity (its `model_dump()`) paired with its `_relevance_score`. -/
def searchEntities (retrieverAvailable : Bool) (s : Store) (query : Str)
    (lim : Nat) (projectId : Option Str) : List (Entity × ℚ) :=
  let qLower := lower query
  if !retrieverAvailable then
    let results := s.entities.filterMap (fun e =>
      if !inScope projectId e then none
      else
        let score := fallbackScore qLower e
        if 0 < score then some (e, score) else none)
    (results.mergeSort scoreOrder).take lim
  else
    let results := s.entities.filterMap (fun e =>
      if !inScope projectId e then none
      else
        let score := strictScore qLower e
        if MIN_RELEVANCE_SCORE ≤ score then some (e, score) else none)
    (results.mergeSort scoreOrder).take lim

/-! ### Traversal engine (`main.find_related_entities`) -/

/-- One output row of the traversal: the neighbor entity snapshot, the
relationship, the direction label and the depth at which it was found. -/
structure RelResult where
  entity : Entity
  relationship : Relationship
  direction : Str
  depth : Nat
deriving DecidableEq

/-- The fixed parameters of one traversal run. -/
structure TravCfg where
  relationships : List Relationship
  entities : List Entity
  startId : Str
  direction : Str
  relationshipType : Option Str
  depth : Nat
  projectId : Option Str

/-- The mutable state threaded through `traverse`: the visited set (in
insertion order) and the accumulated result rows. -/
structure TravState where
  visited : List Str
  results : List RelResult
deriving DecidableEq

/-- The per-relationship direction matching of the traversal loop: the
project filter, the relationship-type filter, then the direction test
yielding the neighbor id and direction label (the `elif` makes an
outgoing match win over an incoming one). -/
def relStep (cfg : TravCfg) (cur : Str) (rel : Relationship) : Option (Str × Str) :=
  if optTruthy cfg.projectId && decide (rel.projectId ≠ cfg.projectId.getD []) then none
  else if optTruthy cfg.relationshipType && decide (rel.type ≠ cfg.relationshipType.getD []) then none
  else if (cfg.direction = str "outgoing" ∨ cfg.direction = str "both") ∧ rel.sourceId = cur then
    some (rel.targetId, str "outgoing")
  else if (cfg.direction = str "incoming" ∨ cfg.direction = str "both") ∧ rel.targetId = cur then
    some (rel.sourceId, str "incoming")
  else none

/-- `traverse(current_entity_id, current_depth)` from
`find_related_entities`: return unchanged when over the depth budget or
already visited; otherwise mark visited and scan every relationship,
recording a row for each direction-compatible neighbor that exists and
differs from the start entity, and recursing into the neighbor while depth
remains. `fuel` is a structural-termination counter only: the caller
passes `depth + 1`, which the depth guard keeps from ever reaching 0. -/
def traverse (cfg : TravCfg) : Nat → Nat → Str → TravState → TravState
  | 0, _, _, st => st
  | fuel + 1, currentDepth, cur, st =>
    if currentDepth > cfg.depth ∨ cur ∈ st.visited then st
    else
      cfg.relationships.foldl
        (fun acc rel =>
          match relStep cfg cur rel with
          | none => acc
          | some (t, dirLabel) =>
            if t.isEmpty then acc
            else
              match dictFind Entity.id t cfg.entities with
              | none => acc
              | some te =>
                let acc1 :=
                  if t ≠ cfg.startId then
                    { acc with results := acc.results ++ [⟨te, rel, dirLabel, currentDepth⟩] }
                  else acc
                if currentDepth < cfg.depth then traverse cfg fuel (currentDepth + 1) t acc1
                else acc1)
        { st with visited := st.visited ++ [cur] }

/-- The loop body of `traverse` as a named function (definitionally the
lambda inside `traverse`), for stating lemmas about the fold. -/
def travStep (cfg : TravCfg) (fuel currentDepth : Nat) (cur : Str) (acc : TravState)
    (rel : Relationship) : TravState :=
  match relStep cfg cur rel with
  | none => acc
  | some (t, dirLabel) =>
    if t.isEmpty then acc
    else
      match dictFind Entity.id t cfg.entities with
      | none => acc
      | some te =>
        let acc1 :=
          if t ≠ cfg.startId then
            { acc with results := acc.results ++ [⟨te, rel, dirLabel, currentDepth⟩] }
          else acc
        if currentDepth < cfg.depth then traverse cfg fuel (currentDepth + 1) t acc1
        else acc1

/-- De-duplication of the result list by `result["entity"]["id"]`, keeping
the first occurrence (`seen_entities` set plus ordered append). -/
def dedupById : List RelResult → List (Option Str) → List RelResult
  | [], _ => []
  | r :: rest, seen =>
    if r.entity.id ∈ seen then dedupById rest seen
    else r :: dedupById rest (r.entity.id :: seen)

/-- `GET /api/entities/{id}/related` (`main.find_related_entities`):
validate the entity, the (truthy, non-default) project, the direction and
the depth bound, then run the traversal from the start entity at depth 1
and de-duplicate the collected rows by neighbor entity id. -/
def findRelatedEntities (s : Store) (entityId : Str) (direction : Str)
    (relationshipType : Option Str) (depth : Nat) (projectId : Option Str) :
    Except HTTPException (List RelResult) :=
  match validateEntityId entityId s.entities with
  | some err => .error err
  | none =>
    match (if optTruthy projectId && decide (projectId ≠ some (str "default")) then
             validateProjectId (projectId.getD []) s.projects
           else none) with
    | some err => .error err
    | none =>
      if ¬(direction = str "outgoing" ∨ direction = str "incoming" ∨ direction = str "both") then
        .error ⟨400, str "Direction must be outgoing, incoming, or both"⟩
      else if ¬(1 ≤ depth ∧ depth ≤ 3) then
        .error ⟨400, str "Depth must be between 1 and 3"⟩
      else
        let cfg : TravCfg :=
          ⟨s.relationships, s.entities, entityId, direction, relationshipType, depth, projectId⟩
        let st := traverse cfg (depth + 1) 1 entityId ⟨[], []⟩
        .ok (dedupById st.results [])

/-! ### Concrete fixtures used by witnesses and counterexamples -/

/-- The default project as it appears in a loaded store. -/
def demoDefaultProject : Project :=
  ⟨some (str "default"), str "Default Project", none, none, none⟩

/-- A stored entity named `alpha`, used by the search fixtures. -/
def eA : Entity :=
  ⟨some (str "a"), str "alpha", str "t", str "d", [], str "u", none, none, str "default"⟩

/-- A one-entity store for the search fixtures. -/
def s0 : Store := ⟨[eA], [], [demoDefaultProject]⟩

/-- Traversal fixture: start entity `e`. -/
def eN : Entity :=
  ⟨some (str "e"), str "E", str "t", str "d", [], str "u", none, none, str "default"⟩

/-- Traversal fixture: neighbor `a`. -/
def aN : Entity :=
  ⟨some (str "a"), str "A", str "t", str "d", [], str "u", none, none, str "default"⟩

/-- Traversal fixture: neighbor `b`. -/
def bN : Entity :=
  ⟨some (str "b"), str "B", str "t", str "d", [], str "u", none, none, str "default"⟩

/-- Traversal fixture: relationship `e → a`. -/
def r1 : Relationship :=
  ⟨some (str "r1"), str "e", str "a", str "rt", none, str "u", none, str "default"⟩

/-- Traversal fixture: relationship `a → b`. -/
def r2 : Relationship :=
  ⟨some (str "r2"), str "a", str "b", str "rt", none, str "u", none, str "default"⟩

/-- Traversal fixture: relationship `e → b`. -/
def r3 : Relationship :=
  ⟨some (str "r3"), str "e", str "b", str "rt", none, str "u", none, str "default"⟩

/-- Traversal fixture store: a cycle `e → a → b` with a shortcut `e → b`. -/
def s1 : Store := ⟨[eN, aN, bN], [r1, r2, r3], [demoDefaultProject]⟩

/-- The traversal configuration `find_related_entities` builds over `s1`
for `entity_id="e"`, `direction="both"`, `depth=2`. -/
def cfg1 : TravCfg := ⟨s1.relationships, s1.entities, str "e", str "both", none, 2, none⟩

/-- C10 fixture: the entity initially stored under id `e1`. -/
def oldE10 : Entity :=
  ⟨some (str "e1"), str "Old", str "alpha", str "d",
   [⟨str "o1", str "note", str "u", str "t0"⟩], str "u",
   some (str "t0"), some (str "t0"), str "default"⟩

/-- C10 fixture: a creation request reusing id `e1` with a different
name and type. -/
def reqE10 : Entity :=
  ⟨some (str "e1"), str "New", str "beta", str "d2", [], str "u", none, none, str "default"⟩

/-- C10 fixture store. -/
def s10 : Store := ⟨[oldE10], [], [demoDefaultProject]⟩

/-- C10 fixture: the entity stored after the colliding create. -/
def newE10 : Entity :=
  ⟨some (str "e1"), str "New", str "beta", str "d2", [], str "u",
   some (str "t1"), some (str "t1"), str "default"⟩

/-- C1 witness fixture: a creation request whose name `old` and type
`Alpha` collide case-insensitively with the stored `Old`/`alpha` entity of
`s10`. -/
def req1w : Entity :=
  ⟨none, str "old", str "Alpha", str "x", [], str "u", none, none, str "default"⟩

/-- C8 witness fixture: the entity stored after updating the name of
`oldE10`. -/
def updE8 : Entity :=
  ⟨some (str "e1"), str "Renamed", str "alpha", str "d",
   [⟨str "o1", str "note", str "u", str "t0"⟩], str "u",
   some (str "t0"), some (str "t2"), str "default"⟩

/-- Modelled from the spec sentence under refutation for C7 only: a
"word-overlap-only" fallback score with no phrase-match component. -/
def specOverlapOnlyScore (qLower : Str) (e : Entity) : ℚ :=
  overlapFraction qLower e * 0.6

/-- What one traversal loop iteration contributes at the depth boundary
(no recursion left): the neighbor row, if the relationship yields one. -/
def collectAtDepth (cfg : TravCfg) (cur : Str) (cd : Nat) (rel : Relationship) :
    Option RelResult :=
  match relStep cfg cur rel with
  | none => none
  | some (t, dirLabel) =>
    if t.isEmpty then none
    else
      match dictFind Entity.id t cfg.entities with
      | none => none
      | some te => if t ≠ cfg.startId then some ⟨te, rel, dirLabel, cd⟩ else none

/-- The traversal configuration the related-entities endpoint builds for
direction `both`, no filters, depth 1. -/
def travCfgBoth1 (s : Store) (e : Str) : TravCfg :=
  ⟨s.relationships, s.entities, e, str "both", none, 1, none⟩

/-! ### C3: deleting the default project -/

/-- C3: for every store state, the delete-project operation invoked on the
identifier `default` fails with the protected-resource error (HTTP 400,
`Cannot delete the default project`) and leaves the store unchanged; the
store layer likewise raises its `ValueError` whenever the default project
exists. The error is distinct from the 404 not-found error and from a
success response. -/
theorem deleteProject_default_protected (s : Store) :
    deleteProjectApi s (str "default") =
      (.error ⟨400, str "Cannot delete the default project"⟩, s) ∧
    ((dictFind Project.id (str "default") s.projects).isSome →
      deleteProjectStore s (str "default") =
        .error (str "Cannot delete the default project.")) := by
  constructor
  · have h1 : (str "default").isEmpty = false := by decide
    have h2 : strip (str "default") = str "default" := by decide
    simp [deleteProjectApi, h1, h2]
  · intro h
    have h3 : (dictFind Project.id (str "default") s.projects).isNone = false := by
      cases hd : dictFind Project.id (str "default") s.projects with
      | none => rw [hd] at h; simp at h
      | some p => simp [hd]
    simp [deleteProjectStore, h3]

/-- C3 witness: the theorem applied to the fixture store `s1`, whose
project dict contains the default project. -/
theorem deleteProject_default_protected_witness :
    deleteProjectApi s1 (str "default") =
      (.error ⟨400, str "Cannot delete the default project"⟩, s1) ∧
    deleteProjectStore s1 (str "default") =
      .error (str "Cannot delete the default project.") :=
  ⟨(deleteProject_default_protected s1).1,
   (deleteProject_default_protected s1).2 (by decide)⟩

/-! ### C10: creating with a colliding explicit id silently replaces -/


/-- C10: a creation request carrying an explicit id equal to a stored
entity's id but a different (name, type) raises no error — the duplicate
check compares only name/type/project and the store never checks id
collisions — and silently replaces the stored entity: the entity count
stays at 1, the dict entry for `e1` now holds the new entity, and the old
entity's fields and observations are gone. -/
theorem createEntity_id_collision_replaces :
    createEntityApi s10 reqE10 (str "t1") (str "uuid1") =
      (.ok newE10, ⟨[newE10], [], [demoDefaultProject]⟩) ∧
    (createEntityApi s10 reqE10 (str "t1") (str "uuid1")).2.entities.length
      = s10.entities.length ∧
    dictFind Entity.id (str "e1")
      (createEntityApi s10 reqE10 (str "t1") (str "uuid1")).2.entities = some newE10 ∧
    newE10.name ≠ oldE10.name ∧ newE10.type ≠ oldE10.type ∧
    newE10.observations = [] ∧ oldE10.observations ≠ [] := by
  with_unfolding_all decide

/-! ### C1: duplicate entity creation -/

theorem isEmpty_false_of_ne_nil {α : Type _} {l : List α} (h : l ≠ []) :
    l.isEmpty = false := by
  cases l with
  | nil => exact absurd rfl h
  | cons a t => rfl

theorem isNone_false_of_isSome {α : Type _} {o : Option α} (h : o.isSome) :
    o.isNone = false := by
  cases o with
  | none => simp at h
  | some a => rfl

/-- C1: a creation request that passes field validation and whose name and
type equal — case-insensitively, on the stripped request values the API
canonicalizes to — the name and type of an entity already stored in the
same project fails with the 409 conflict error, and the store (in
particular its entity count) is unchanged. -/
theorem createEntity_duplicate_conflict
    (s : Store) (req : Entity) (now freshId : Str)
    (hname : strip req.name ≠ []) (htype : strip req.type ≠ [])
    (hdesc : strip req.description ≠ []) (hadd : strip req.addedBy ≠ [])
    (hproj : req.projectId = str "default" ∨
             (req.projectId ≠ [] ∧ (dictFind Project.id req.projectId s.projects).isSome))
    (ex : Entity) (hex : ex ∈ s.entities)
    (hn : lower ex.name = lower (strip req.name))
    (ht : lower ex.type = lower (strip req.type))
    (hp : ex.projectId = req.projectId) :
    createEntityApi s req now freshId =
      (.error ⟨409, str "Entity " ++ strip req.name ++ str " of type " ++ strip req.type ++
                    str " already exists in project " ++ req.projectId⟩, s) ∧
    (createEntityApi s req now freshId).2.entities.length = s.entities.length := by
  have hvp : (if req.projectId ≠ str "default" then
                validateProjectId req.projectId s.projects else none) = none := by
    split
    · rcases hproj with h | ⟨hne, hsome⟩
      · exact absurd h (by assumption)
      · simp [validateProjectId, isEmpty_false_of_ne_nil hne, isNone_false_of_isSome hsome]
    · rfl
  have hval : validateEntityCreation req s.projects =
      .ok { req with name := strip req.name, type := strip req.type,
                     description := strip req.description, addedBy := strip req.addedBy } := by
    simp [validateEntityCreation, isEmpty_false_of_ne_nil hname, isEmpty_false_of_ne_nil htype,
          isEmpty_false_of_ne_nil hdesc, isEmpty_false_of_ne_nil hadd, hvp]
  have hany : s.entities.any (fun exi =>
      decide (lower exi.name = lower (strip req.name)) &&
      decide (lower exi.type = lower (strip req.type)) &&
      decide (exi.projectId = req.projectId)) = true := by
    rw [List.any_eq_true]
    exact ⟨ex, hex, by simp [hn, ht, hp]⟩
  have h1 : createEntityApi s req now freshId =
      (.error ⟨409, str "Entity " ++ strip req.name ++ str " of type " ++ strip req.type ++
                    str " already exists in project " ++ req.projectId⟩, s) := by
    rw [createEntityApi, hval]
    simp [validateDuplicateEntity, hany]
  exact ⟨h1, by rw [h1]⟩


/-- C1 witness: the theorem applied to the `s10` fixture. -/
theorem createEntity_duplicate_conflict_witness :
    (strip req1w.name ≠ [] ∧ oldE10 ∈ s10.entities ∧
     lower oldE10.name = lower (strip req1w.name) ∧
     lower oldE10.type = lower (strip req1w.type) ∧
     oldE10.projectId = req1w.projectId) ∧
    createEntityApi s10 req1w (str "t1") (str "u1") =
      (.error ⟨409, str "Entity " ++ strip req1w.name ++ str " of type " ++ strip req1w.type ++
                    str " already exists in project " ++ req1w.projectId⟩, s10) ∧
    (createEntityApi s10 req1w (str "t1") (str "u1")).2.entities.length
      = s10.entities.length :=
  ⟨⟨by decide, by decide, by decide, by decide, by decide⟩,
   createEntity_duplicate_conflict s10 req1w (str "t1") (str "u1")
     (by decide) (by decide) (by decide) (by decide) (Or.inl (by decide))
     oldE10 (by decide) (by decide) (by decide) (by decide)⟩

/-! ### C2: entity deletion cascades to incident relationships -/

/-- Erasing the (unique, under duplicate-free keys) entry with a given key
is the same as filtering it out. -/
theorem eraseP_eq_filter_of_nodup_map {α : Type _} (f : α → Option Str) (v : Option Str)
    (L : List α) (h : (L.map f).Nodup) :
    L.eraseP (fun r => decide (f r = v)) = L.filter (fun r => !decide (f r = v)) := by
  induction L with
  | nil => rfl
  | cons a t ih =>
    rw [List.map_cons, List.nodup_cons] at h
    by_cases hav : f a = v
    · rw [List.eraseP_cons_of_pos (by simp [hav]), List.filter_cons_of_neg (by simp [hav])]
      rw [Eq.comm, List.filter_eq_self]
      intro x hx
      have : f x ≠ v := by
        intro hfx
        have hm : f x ∈ t.map f := List.mem_map_of_mem f hx
        rw [hfx, ← hav] at hm
        exact h.1 hm
      simp [this]
    · rw [List.eraseP_cons_of_neg (by simp [hav]), List.filter_cons_of_pos (by simp [hav]),
          ih h.2]

/-- Iterated dict deletion of a list of keys over a duplicate-free-keyed
dict is the same as filtering out all entries with those keys. -/
theorem foldl_dictErase_eq_filter {α : Type _} (f : α → Option Str) :
    ∀ (D : List (Option Str)) (L : List α), (L.map f).Nodup →
    D.foldl (fun acc v => dictErase f v acc) L = L.filter (fun r => !decide (f r ∈ D))
  | [], L, _ => by simp
  | v :: D, L, h => by
    rw [List.foldl_cons]
    have hsub : ((dictErase f v L).map f).Nodup :=
      ((List.eraseP_sublist L).map f).nodup h
    rw [foldl_dictErase_eq_filter f D (dictErase f v L) hsub]
    rw [dictErase, eraseP_eq_filter_of_nodup_map f v L h, List.filter_filter]
    refine List.filter_congr ?_
    intro a _
    by_cases h1 : f a = v <;> by_cases h2 : f a ∈ D <;> simp [h1, h2]

/-- C2: deleting a present entity succeeds, removes exactly that dict
entry, removes exactly the relationships incident to it (so the
relationship count drops by exactly the number of incident
relationships), and removes nothing else: non-incident relationships and
the projects are untouched. -/
theorem deleteEntity_cascade (s : Store) (k : Str)
    (hpresent : (dictFind Entity.id k s.entities).isSome)
    (hentIds : (s.entities.map Entity.id).Nodup)
    (hrelIds : (s.relationships.map Relationship.id).Nodup) :
    (deleteEntity s k).1 = true ∧
    (deleteEntity s k).2.entities
      = s.entities.filter (fun e => !decide (e.id = some k)) ∧
    dictFind Entity.id k (deleteEntity s k).2.entities = none ∧
    (∀ e ∈ s.entities, e.id ≠ some k → e ∈ (deleteEntity s k).2.entities) ∧
    (deleteEntity s k).2.relationships
      = s.relationships.filter (fun r => !incident k r) ∧
    (deleteEntity s k).2.relationships.length
      = s.relationships.length - s.relationships.countP (incident k) ∧
    (∀ r ∈ s.relationships, incident k r = true →
       r ∉ (deleteEntity s k).2.relationships) ∧
    (∀ r ∈ s.relationships, incident k r = false →
       r ∈ (deleteEntity s k).2.relationships) ∧
    (deleteEntity s k).2.projects = s.projects := by
  have hnn : (dictFind Entity.id k s.entities).isNone = false :=
    isNone_false_of_isSome hpresent
  have hde : deleteEntity s k =
      (true,
       { s with
         entities := dictErase Entity.id (some k) s.entities
         relationships :=
           (((s.relationships.filter (incident k)).map Relationship.id).foldl
             (fun acc rid => dictErase Relationship.id rid acc) s.relationships) }) := by
    rw [deleteEntity, hnn]
    rfl
  have hents : dictErase Entity.id (some k) s.entities
      = s.entities.filter (fun e => !decide (e.id = some k)) :=
    eraseP_eq_filter_of_nodup_map Entity.id (some k) s.entities hentIds
  have hrels : (((s.relationships.filter (incident k)).map Relationship.id).foldl
        (fun acc rid => dictErase Relationship.id rid acc) s.relationships)
      = s.relationships.filter (fun r => !incident k r) := by
    rw [foldl_dictErase_eq_filter Relationship.id _ s.relationships hrelIds]
    refine List.filter_congr ?_
    intro r hr
    by_cases h1 : incident k r = true
    · have : r.id ∈ (s.relationships.filter (incident k)).map Relationship.id :=
        List.mem_map_of_mem Relationship.id (List.mem_filter.mpr ⟨hr, h1⟩)
      simp [this, h1]
    · have : r.id ∉ (s.relationships.filter (incident k)).map Relationship.id := by
        intro hmem
        rcases List.mem_map.mp hmem with ⟨r', hr', hid⟩
        have hr'mem : r' ∈ s.relationships := (List.mem_filter.mp hr').1
        have : r' = r := List.inj_on_of_nodup_map hrelIds hr'mem hr hid
        exact h1 (this ▸ (List.mem_filter.mp hr').2)
      simp [this, h1]
  refine ⟨by rw [hde], by rw [hde]; exact hents, ?_, ?_, by rw [hde]; exact hrels, ?_, ?_, ?_, by rw [hde]⟩
  · rw [hde]
    simp only [hents]
    rw [dictFind, List.find?_eq_none]
    intro x hx
    have := (List.mem_filter.mp hx).2
    simpa using this
  · intro e he hne
    rw [hde]
    simp only [hents]
    exact List.mem_filter.mpr ⟨he, by simpa using hne⟩
  · rw [hde]
    simp only [hrels]
    rw [List.countP_eq_length_filter]
    have := List.length_eq_countP_add_countP (incident k) s.relationships
    rw [List.countP_eq_length_filter, List.countP_eq_length_filter] at this
    have heq : s.relationships.filter (fun r => !incident k r)
        = s.relationships.filter (fun a => decide ¬incident k a = true) := by
      refine List.filter_congr ?_
      intro a _
      by_cases h1 : incident k a = true <;> simp [h1]
    rw [heq]
    omega
  · intro r _ hinc
    rw [hde]
    simp only [hrels]
    intro hmem
    have := (List.mem_filter.mp hmem).2
    rw [hinc] at this
    simp at this
  · intro r hr hninc
    rw [hde]
    simp only [hrels]
    exact List.mem_filter.mpr ⟨hr, by simp [hninc]⟩

/-- C2 witness: deleting entity `a` from the fixture store `s1` removes it
and both relationships incident to `a`, and nothing else. -/
theorem deleteEntity_cascade_witness :
    ((dictFind Entity.id (str "a") s1.entities).isSome ∧
     (s1.entities.map Entity.id).Nodup ∧ (s1.relationships.map Relationship.id).Nodup) ∧
    (deleteEntity s1 (str "a")).1 = true ∧
    (deleteEntity s1 (str "a")).2.relationships
      = s1.relationships.filter (fun r => !incident (str "a") r) ∧
    (deleteEntity s1 (str "a")).2.relationships.length
      = s1.relationships.length - s1.relationships.countP (incident (str "a")) :=
  ⟨⟨by decide, by decide, by decide⟩,
   (deleteEntity_cascade s1 (str "a") (by decide) (by decide) (by decide)).1,
   (deleteEntity_cascade s1 (str "a") (by decide) (by decide) (by decide)).2.2.2.2.1,
   (deleteEntity_cascade s1 (str "a") (by decide) (by decide) (by decide)).2.2.2.2.2.1⟩

/-! ### C9: snapshot round trip -/

/-- Dict insertion with a key not present in the dict appends. -/
theorem dictReplace_append {α : Type _} (key : α → Option Str) (k : Option Str) (x : α) :
    ∀ (L : List α), (∀ y ∈ L, key y ≠ k) → dictReplace key k x L = L ++ [x]
  | [], _ => rfl
  | y :: t, h => by
    rw [dictReplace, if_neg (h y (List.mem_cons_self y t)),
        dictReplace_append key k x t (fun z hz => h z (List.mem_cons_of_mem y hz))]
    rfl

/-- Loading a collection of valid items with duplicate-free keys into a
dict replays it unchanged and completes. -/
theorem loadList_complete {α : Type _} (valid : α → Bool) (key : α → Option Str) :
    ∀ (items acc : List α), (∀ x ∈ items, valid x = true) →
      ((acc ++ items).map key).Nodup →
      loadList valid key items acc = (acc ++ items, true)
  | [], acc, _, _ => by simp [loadList]
  | x :: xs, acc, hv, hn => by
    rw [loadList, if_pos (hv x (List.mem_cons_self x xs))]
    have hfresh : ∀ y ∈ acc, key y ≠ key x := by
      intro y hy hk
      rw [List.map_append] at hn
      rcases List.nodup_append.mp hn with ⟨_, _, hdisj⟩
      exact hdisj (List.mem_map_of_mem key hy)
        (by rw [hk]; exact List.mem_cons_self _ _)
    rw [dictReplace_append key (key x) x acc hfresh]
    have hrec := loadList_complete valid key xs (acc ++ [x])
      (fun z hz => hv z (List.mem_cons_of_mem x hz))
      (by rw [List.append_assoc]; simpa using hn)
    rw [hrec, List.append_assoc]
    rfl

/-- C9: serializing a store whose collections satisfy the pydantic
constraints and have duplicate-free keys, then loading the snapshot into a
fresh store, reproduces the entity, relationship and project populations
field by field; the loaded store always contains the `default` project —
identically when the original had it, appended when it did not. -/
theorem snapshot_roundtrip (s : Store) (now1 now2 : Str)
    (hev : ∀ e ∈ s.entities, e.pydanticValid = true)
    (hrv : ∀ r ∈ s.relationships, r.pydanticValid = true)
    (hpv : ∀ p ∈ s.projects, p.pydanticValid = true)
    (hei : (s.entities.map Entity.id).Nodup)
    (hri : (s.relationships.map Relationship.id).Nodup)
    (hpi : (s.projects.map Project.id).Nodup) :
    (ensureDefaultProject (loadMetadata (saveMetadata s now1)) now2).entities = s.entities ∧
    (ensureDefaultProject (loadMetadata (saveMetadata s now1)) now2).relationships
      = s.relationships ∧
    (dictFind Project.id (str "default")
      (ensureDefaultProject (loadMetadata (saveMetadata s now1)) now2).projects).isSome ∧
    ((dictFind Project.id (str "default") s.projects).isSome →
      (ensureDefaultProject (loadMetadata (saveMetadata s now1)) now2).projects
        = s.projects) ∧
    ((dictFind Project.id (str "default") s.projects).isNone →
      (ensureDefaultProject (loadMetadata (saveMetadata s now1)) now2).projects
        = s.projects ++ [defaultProject now2]) := by
  have h1 := loadList_complete Entity.pydanticValid Entity.id s.entities [] hev
    (by simpa using hei)
  have h2 := loadList_complete Relationship.pydanticValid Relationship.id s.relationships []
    hrv (by simpa using hri)
  have h3 := loadList_complete Project.pydanticValid Project.id s.projects [] hpv
    (by simpa using hpi)
  simp only [List.nil_append] at h1 h2 h3
  have hload : loadMetadata (saveMetadata s now1) = ⟨s.entities, s.relationships, s.projects⟩ := by
    rw [loadMetadata]
    simp only [saveMetadata, h1, h2, h3, Bool.not_true, Bool.false_eq_true, if_false]
  have hED : ∀ t : Store,
      ensureDefaultProject t now2 =
        (if (dictFind Project.id (str "default") t.projects).isSome then t
         else { t with projects := dictReplace Project.id (some (str "default"))
                        (defaultProject now2) t.projects }) := by
    intro t
    rw [ensureDefaultProject]
  rw [hload]
  by_cases hdef : (dictFind Project.id (str "default") s.projects).isSome
  · rw [hED, if_pos hdef]
    refine ⟨rfl, rfl, hdef, fun _ => rfl, fun hn => ?_⟩
    rw [Option.isNone_iff_eq_none] at hn
    rw [hn] at hdef
    simp at hdef
  · rw [hED, if_neg hdef]
    have hfresh : ∀ p ∈ s.projects, Project.id p ≠ some (str "default") := by
      intro p hp hk
      apply hdef
      rw [dictFind, List.find?_isSome]
      exact ⟨p, hp, by simp [hk]⟩
    rw [dictReplace_append Project.id (some (str "default")) (defaultProject now2)
          s.projects hfresh]
    refine ⟨rfl, rfl, ?_, fun hsome => absurd hsome hdef, fun _ => rfl⟩
    rw [dictFind, List.find?_isSome]
    exact ⟨defaultProject now2, List.mem_append.mpr (Or.inr (by simp)),
           by simp [defaultProject]⟩

/-- C9 witness: the round trip on the fixture store `s1` (which holds the
default project) reproduces it exactly. -/
theorem snapshot_roundtrip_witness :
    (ensureDefaultProject (loadMetadata (saveMetadata s1 (str "t1"))) (str "t2")).entities
      = s1.entities ∧
    (ensureDefaultProject (loadMetadata (saveMetadata s1 (str "t1"))) (str "t2")).relationships
      = s1.relationships ∧
    (ensureDefaultProject (loadMetadata (saveMetadata s1 (str "t1"))) (str "t2")).projects
      = s1.projects :=
  ⟨(snapshot_roundtrip s1 (str "t1") (str "t2") (by decide) (by decide) (by decide)
      (by decide) (by decide) (by decide)).1,
   (snapshot_roundtrip s1 (str "t1") (str "t2") (by decide) (by decide) (by decide)
      (by decide) (by decide) (by decide)).2.1,
   (snapshot_roundtrip s1 (str "t1") (str "t2") (by decide) (by decide) (by decide)
      (by decide) (by decide) (by decide)).2.2.2.1 (by decide)⟩

/-! ### C8: entity update — not-found behavior and frame conditions -/

/-- `setattr` with a whitelisted key changes none of the id, addedBy,
createdAt, observations attributes. -/
theorem setattr_frame (e : Entity) (k v : Str) (hk : k ∈ allowedUpdateFields) :
    (setattrStr e k v).id = e.id ∧ (setattrStr e k v).addedBy = e.addedBy ∧
    (setattrStr e k v).createdAt = e.createdAt ∧
    (setattrStr e k v).observations = e.observations := by
  simp only [allowedUpdateFields, List.mem_cons, List.not_mem_nil, or_false] at hk
  rcases hk with h | h | h | h <;> subst h <;>
    refine ⟨?_, ?_, ?_, ?_⟩ <;> simp +decide [setattrStr]

/-- Folding whitelisted `setattr` updates over an entity preserves the id,
addedBy, createdAt, observations attributes. -/
theorem foldl_setattr_frame :
    ∀ (updates : List (Str × Str)) (e : Entity),
      (∀ kv ∈ updates, kv.1 ∈ allowedUpdateFields) →
      (updates.foldl (fun acc kv => setattrStr acc kv.1 kv.2) e).id = e.id ∧
      (updates.foldl (fun acc kv => setattrStr acc kv.1 kv.2) e).addedBy = e.addedBy ∧
      (updates.foldl (fun acc kv => setattrStr acc kv.1 kv.2) e).createdAt = e.createdAt ∧
      (updates.foldl (fun acc kv => setattrStr acc kv.1 kv.2) e).observations = e.observations
  | [], e, _ => ⟨rfl, rfl, rfl, rfl⟩
  | kv :: t, e, h => by
    rw [List.foldl_cons]
    have h1 := setattr_frame e kv.1 kv.2 (h kv (List.mem_cons_self _ _))
    have h2 := foldl_setattr_frame t (setattrStr e kv.1 kv.2)
      (fun z hz => h z (List.mem_cons_of_mem _ hz))
    exact ⟨h2.1.trans h1.1, h2.2.1.trans h1.2.1, h2.2.2.1.trans h1.2.2.1,
           h2.2.2.2.trans h1.2.2.2⟩

/-- C8: the update endpoint fails with the 404 not-found error and leaves
the store unchanged when the id is absent; and whenever it succeeds, only
whitelisted fields were supplied, the result entity keeps the stored
entity's id, addedBy, createdAt and observations, carries the fresh
`updatedAt` stamp, and the store changes only by re-binding that one
entity key (relationships and projects untouched). -/
theorem updateEntity_notfound_and_frame (s : Store) (k : Str)
    (updates : List (Str × Str)) (now : Str) :
    (k ≠ [] → dictFind Entity.id k s.entities = none →
      updateEntityApi s k updates now =
        (.error ⟨404, str "Entity " ++ k ++ str " not found"⟩, s)) ∧
    (∀ e' s', updateEntityApi s k updates now = (.ok e', s') →
      ∃ e, dictFind Entity.id k s.entities = some e ∧
        e'.id = e.id ∧ e'.addedBy = e.addedBy ∧ e'.createdAt = e.createdAt ∧
        e'.observations = e.observations ∧ e'.updatedAt = some now ∧
        (∀ kv ∈ updates, kv.1 ∈ allowedUpdateFields) ∧
        s'.entities = dictReplace Entity.id (some k) e' s.entities ∧
        s'.relationships = s.relationships ∧ s'.projects = s.projects) := by
  constructor
  · intro hk hnone
    rw [updateEntityApi]
    have hval : validateEntityId k s.entities =
        some ⟨404, str "Entity " ++ k ++ str " not found"⟩ := by
      rw [validateEntityId, isEmpty_false_of_ne_nil hk]
      simp [hnone]
    rw [hval]
  · intro e' s' h
    rw [updateEntityApi] at h
    split at h
    · exact absurd h (by simp)
    split at h
    · exact absurd h (by simp)
    rename_i hany1
    split at h
    · exact absurd h (by simp)
    dsimp only at h
    split at h
    · exact absurd h (by simp)
    split at h
    · exact absurd h (by simp)
    rename_i e2 s2 hstore
    have hkeys : ∀ kv ∈ updates, kv.1 ∈ allowedUpdateFields := by
      intro kv hkv
      by_contra hno
      exact hany1 (List.any_eq_true.mpr ⟨kv, hkv, by simp [hno]⟩)
    have hkeys' : ∀ kv ∈ updates.map (fun kv =>
        if decide (kv.1 ∈ textualUpdateFields) then (kv.1, strip kv.2) else kv),
        kv.1 ∈ allowedUpdateFields := by
      intro kv hkv
      rcases List.mem_map.mp hkv with ⟨orig, horig, heq2⟩
      have h1 : kv.1 = orig.1 := by
        by_cases ht : orig.1 ∈ textualUpdateFields <;> simp [ht] at heq2 <;> rw [← heq2]
      rw [h1]
      exact hkeys orig horig
    rw [updateEntityStore] at hstore
    split at hstore
    · exact absurd hstore (by simp)
    · rename_i e hfind
      injection hstore with hfst hsnd
      injection hfst with hR
      injection h with hok hs'eq
      injection hok with hE
      subst hR
      subst hsnd
      subst hE
      subst hs'eq
      refine ⟨e, hfind, ?_, ?_, ?_, ?_, rfl, hkeys, rfl, rfl, rfl⟩
      · exact (foldl_setattr_frame _ e hkeys').1
      · exact (foldl_setattr_frame _ e hkeys').2.1
      · exact (foldl_setattr_frame _ e hkeys').2.2.1
      · exact (foldl_setattr_frame _ e hkeys').2.2.2


/-- C8 witness: the theorem applied to the `s10` fixture, once for a
missing id and once for a successful rename. -/
theorem updateEntity_notfound_and_frame_witness :
    updateEntityApi s10 (str "zz") [] (str "t2") =
      (.error ⟨404, str "Entity " ++ str "zz" ++ str " not found"⟩, s10) ∧
    (∃ e, dictFind Entity.id (str "e1") s10.entities = some e ∧
      updE8.id = e.id ∧ updE8.addedBy = e.addedBy ∧ updE8.createdAt = e.createdAt ∧
      updE8.observations = e.observations ∧ updE8.updatedAt = some (str "t2") ∧
      (∀ kv ∈ [(str "name", str "Renamed")], kv.1 ∈ allowedUpdateFields) ∧
      (⟨[updE8], [], [demoDefaultProject]⟩ : Store).entities
        = dictReplace Entity.id (some (str "e1")) updE8 s10.entities ∧
      (⟨[updE8], [], [demoDefaultProject]⟩ : Store).relationships = s10.relationships ∧
      (⟨[updE8], [], [demoDefaultProject]⟩ : Store).projects = s10.projects) :=
  ⟨(updateEntity_notfound_and_frame s10 (str "zz") [] (str "t2")).1
     (by decide) (by decide),
   (updateEntity_notfound_and_frame s10 (str "e1")
      [(str "name", str "Renamed")] (str "t2")).2 updE8
      ⟨[updE8], [], [demoDefaultProject]⟩ (by with_unfolding_all decide)⟩

/-! ### C6 and C7: the two search scoring paths -/

theorem scoreOrder_trans (a b c : Entity × ℚ) :
    scoreOrder a b = true → scoreOrder b c = true → scoreOrder a c = true := by
  simp only [scoreOrder, decide_eq_true_eq]
  exact fun h1 h2 => h2.trans h1

theorem scoreOrder_total (a b : Entity × ℚ) :
    (scoreOrder a b || scoreOrder b a) = true := by
  simp only [scoreOrder, Bool.or_eq_true, decide_eq_true_eq]
  exact le_total b.2 a.2

theorem strictPhraseScore_nonneg (q : Str) (e : Entity) :
    0 ≤ strictPhraseScore q e := by
  rw [strictPhraseScore]
  split
  · norm_num
  · split
    · norm_num
    · split <;> norm_num

theorem strictScore_of_phrase_zero (q : Str) (e : Entity)
    (h : strictPhraseScore q e = 0) : strictScore q e = 0 := by
  rw [strictScore, h]
  norm_num

/-- C6: on the strict (retriever-available) path, every returned hit is an
in-scope stored entity whose score is its strict relevance score — the
phrase component, which must have fired, plus the word-overlap bonus that
is added only when it fired (entities with no phrase match score 0) — at
least the configured minimum relevance threshold; the output is sorted by
descending score and holds at most `limit` results. -/
theorem searchEntities_strict_scoring (s : Store) (query : Str) (lim : Nat)
    (projectId : Option Str) (r : Entity × ℚ)
    (hr : r ∈ searchEntities true s query lim projectId) :
    (searchEntities true s query lim projectId).length ≤ lim ∧
    (searchEntities true s query lim projectId).Pairwise (fun a b => b.2 ≤ a.2) ∧
    r.1 ∈ s.entities ∧ inScope projectId r.1 = true ∧
    r.2 = strictScore (lower query) r.1 ∧
    MIN_RELEVANCE_SCORE ≤ r.2 ∧
    0 < strictPhraseScore (lower query) r.1 ∧
    r.2 = strictPhraseScore (lower query) r.1 + overlapFraction (lower query) r.1 * 0.3 ∧
    (∀ e : Entity, strictPhraseScore (lower query) e = 0 →
       strictScore (lower query) e = 0) := by
  have hunf : searchEntities true s query lim projectId
      = ((s.entities.filterMap (fun e =>
          if !inScope projectId e then none
          else if MIN_RELEVANCE_SCORE ≤ strictScore (lower query) e then
            some (e, strictScore (lower query) e) else none)).mergeSort scoreOrder).take lim := by
    rw [searchEntities]
    rfl
  have hsorted : ((s.entities.filterMap (fun e =>
      if !inScope projectId e then none
      else if MIN_RELEVANCE_SCORE ≤ strictScore (lower query) e then
        some (e, strictScore (lower query) e) else none)).mergeSort scoreOrder).Pairwise
      (fun a b => scoreOrder a b = true) :=
    List.sorted_mergeSort scoreOrder_trans scoreOrder_total _
  have hmem : r ∈ s.entities.filterMap (fun e =>
      if !inScope projectId e then none
      else if MIN_RELEVANCE_SCORE ≤ strictScore (lower query) e then
        some (e, strictScore (lower query) e) else none) := by
    rw [hunf] at hr
    exact ((List.mergeSort_perm _ scoreOrder).mem_iff).mp (List.take_subset lim _ hr)
  rcases List.mem_filterMap.mp hmem with ⟨e, he, hfe⟩
  have hscope : inScope projectId e = true := by
    by_contra hs
    simp only [Bool.not_eq_true] at hs
    rw [hs] at hfe
    simp at hfe
  rw [hscope] at hfe
  simp only [Bool.not_true, Bool.false_eq_true, if_false] at hfe
  have hcut : MIN_RELEVANCE_SCORE ≤ strictScore (lower query) e := by
    by_contra hc
    rw [if_neg hc] at hfe
    simp at hfe
  rw [if_pos hcut, Option.some.injEq] at hfe
  subst hfe
  have hps : 0 < strictPhraseScore (lower query) e := by
    rcases lt_or_eq_of_le (strictPhraseScore_nonneg (lower query) e) with h | h
    · exact h
    · exfalso
      have h0 : strictScore (lower query) e = 0 := strictScore_of_phrase_zero _ _ h.symm
      rw [h0] at hcut
      rw [MIN_RELEVANCE_SCORE] at hcut
      norm_num at hcut
  refine ⟨?_, ?_, he, hscope, rfl, hcut, hps, ?_, fun e' => strictScore_of_phrase_zero _ _⟩
  · rw [hunf, List.length_take]
    exact min_le_left _ _
  · rw [hunf]
    exact ((hsorted.sublist (List.take_sublist lim _)).imp
      (fun h => by simpa [scoreOrder, decide_eq_true_eq] using h))
  · rw [strictScore, if_pos hps]

/-- C6 witness: on the one-entity fixture `s0`, the query `alpha` phrase-
matches the entity name (1.0) and earns the full overlap bonus (0.3),
yielding the single hit with score 1.3. -/
theorem searchEntities_strict_scoring_witness :
    ((eA, (1.3 : ℚ)) ∈ searchEntities true s0 (str "alpha") 5 none) ∧
    ((searchEntities true s0 (str "alpha") 5 none).length ≤ 5 ∧
     (searchEntities true s0 (str "alpha") 5 none).Pairwise (fun a b => b.2 ≤ a.2) ∧
     (eA, (1.3 : ℚ)).1 ∈ s0.entities ∧ inScope none (eA, (1.3 : ℚ)).1 = true ∧
     (eA, (1.3 : ℚ)).2 = strictScore (lower (str "alpha")) (eA, (1.3 : ℚ)).1 ∧
     MIN_RELEVANCE_SCORE ≤ (eA, (1.3 : ℚ)).2 ∧
     0 < strictPhraseScore (lower (str "alpha")) (eA, (1.3 : ℚ)).1 ∧
     (eA, (1.3 : ℚ)).2 = strictPhraseScore (lower (str "alpha")) (eA, (1.3 : ℚ)).1 +
       overlapFraction (lower (str "alpha")) (eA, (1.3 : ℚ)).1 * 0.3 ∧
     (∀ e : Entity, strictPhraseScore (lower (str "alpha")) e = 0 →
        strictScore (lower (str "alpha")) e = 0)) :=
  ⟨by with_unfolding_all decide,
   searchEntities_strict_scoring s0 (str "alpha") 5 none (eA, 1.3)
     (by with_unfolding_all decide)⟩


/-- C7 counterexample: with no retriever, the query `alph` has zero word
overlap with the fixture entity `alpha` (so a word-overlap-only scoring, as
the claim states it, would give score 0 and exclude the entity), yet the
fallback path returns the entity with the phrase-match score 0.3. -/
theorem searchEntities_fallback_counterexample :
    searchEntities false s0 (str "alph") 10 none = [(eA, (0.3 : ℚ))] ∧
    specOverlapOnlyScore (lower (str "alph")) eA = 0 ∧
    overlapFraction (lower (str "alph")) eA = 0 ∧
    fallbackPhraseScore (lower (str "alph")) eA = 0.3 := by
  with_unfolding_all decide

/-- C7 (amended): on the fallback (no-retriever) path, every returned hit
is an in-scope stored entity scored by word overlap (weight 0.6) plus the
smaller phrase-match component (0.3 name / 0.2 description / 0.1
observation); no minimum threshold applies — any in-scope entity with
score strictly above zero is included whenever the limit accommodates the
result list — and the output is sorted by descending score and truncated
to `limit`. -/
theorem searchEntities_fallback_scoring (s : Store) (query : Str) (lim : Nat)
    (projectId : Option Str) (r : Entity × ℚ)
    (hr : r ∈ searchEntities false s query lim projectId) :
    (searchEntities false s query lim projectId).length ≤ lim ∧
    (searchEntities false s query lim projectId).Pairwise (fun a b => b.2 ≤ a.2) ∧
    r.1 ∈ s.entities ∧ inScope projectId r.1 = true ∧
    r.2 = fallbackScore (lower query) r.1 ∧
    0 < r.2 ∧
    (∀ e ∈ s.entities, inScope projectId e = true →
      0 < fallbackScore (lower query) e → s.entities.length ≤ lim →
      (e, fallbackScore (lower query) e) ∈ searchEntities false s query lim projectId) := by
  have hunf : searchEntities false s query lim projectId
      = ((s.entities.filterMap (fun e =>
          if !inScope projectId e then none
          else if 0 < fallbackScore (lower query) e then
            some (e, fallbackScore (lower query) e) else none)).mergeSort scoreOrder).take lim := by
    rw [searchEntities]
    rfl
  have hsorted := @List.sorted_mergeSort _ scoreOrder scoreOrder_trans scoreOrder_total
    (s.entities.filterMap (fun e =>
      if !inScope projectId e then none
      else if 0 < fallbackScore (lower query) e then
        some (e, fallbackScore (lower query) e) else none))
  have hmem : r ∈ s.entities.filterMap (fun e =>
      if !inScope projectId e then none
      else if 0 < fallbackScore (lower query) e then
        some (e, fallbackScore (lower query) e) else none) := by
    rw [hunf] at hr
    exact ((List.mergeSort_perm _ scoreOrder).mem_iff).mp (List.take_subset lim _ hr)
  rcases List.mem_filterMap.mp hmem with ⟨e, he, hfe⟩
  have hscope : inScope projectId e = true := by
    by_contra hs
    simp only [Bool.not_eq_true] at hs
    rw [hs] at hfe
    simp at hfe
  rw [hscope] at hfe
  simp only [Bool.not_true, Bool.false_eq_true, if_false] at hfe
  have hpos : 0 < fallbackScore (lower query) e := by
    by_contra hc
    rw [if_neg hc] at hfe
    simp at hfe
  rw [if_pos hpos, Option.some.injEq] at hfe
  subst hfe
  refine ⟨?_, ?_, he, hscope, rfl, hpos, ?_⟩
  · rw [hunf, List.length_take]
    exact min_le_left _ _
  · rw [hunf]
    exact ((hsorted.sublist (List.take_sublist lim _)).imp
      (fun h => by simpa [scoreOrder, decide_eq_true_eq] using h))
  · intro e' he' hscope' hpos' hlim
    have hmem' : (e', fallbackScore (lower query) e') ∈ s.entities.filterMap (fun e =>
        if !inScope projectId e then none
        else if 0 < fallbackScore (lower query) e then
          some (e, fallbackScore (lower query) e) else none) :=
      List.mem_filterMap.mpr ⟨e', he', by rw [hscope']; simp [hpos']⟩
    rw [hunf]
    have hlen : ((s.entities.filterMap (fun e =>
        if !inScope projectId e then none
        else if 0 < fallbackScore (lower query) e then
          some (e, fallbackScore (lower query) e) else none)).mergeSort scoreOrder).length ≤ lim := by
      rw [List.length_mergeSort]
      exact le_trans (List.length_filterMap_le _ _) hlim
    rw [List.take_of_length_le hlen]
    exact ((List.mergeSort_perm _ scoreOrder).mem_iff).mpr hmem'

/-- C7 witness: with no retriever the query `alpha` scores the fixture
entity by overlap (0.6) plus name phrase match (0.3). -/
theorem searchEntities_fallback_scoring_witness :
    ((eA, (0.9 : ℚ)) ∈ searchEntities false s0 (str "alpha") 5 none) ∧
    ((searchEntities false s0 (str "alpha") 5 none).length ≤ 5 ∧
     (searchEntities false s0 (str "alpha") 5 none).Pairwise (fun a b => b.2 ≤ a.2) ∧
     (eA, (0.9 : ℚ)).1 ∈ s0.entities ∧ inScope none (eA, (0.9 : ℚ)).1 = true ∧
     (eA, (0.9 : ℚ)).2 = fallbackScore (lower (str "alpha")) (eA, (0.9 : ℚ)).1 ∧
     0 < (eA, (0.9 : ℚ)).2 ∧
     (∀ e ∈ s0.entities, inScope none e = true →
       0 < fallbackScore (lower (str "alpha")) e → s0.entities.length ≤ 5 →
       (e, fallbackScore (lower (str "alpha")) e) ∈
         searchEntities false s0 (str "alpha") 5 none)) :=
  ⟨by with_unfolding_all decide,
   searchEntities_fallback_scoring s0 (str "alpha") 5 none (eA, 0.9)
     (by with_unfolding_all decide)⟩

/-! ### C4 and C5: the relationship traversal -/

/-- Unfolding equation for `traverse` at positive fuel, phrased through the
named loop body `travStep`. -/
theorem traverse_succ (cfg : TravCfg) (fuel currentDepth : Nat) (cur : Str)
    (st : TravState) :
    traverse cfg (fuel + 1) currentDepth cur st =
      (if currentDepth > cfg.depth ∨ cur ∈ st.visited then st
       else cfg.relationships.foldl (travStep cfg fuel currentDepth cur)
         { st with visited := st.visited ++ [cur] }) := by
  rw [traverse]
  rfl

/-- The de-duplication pass keeps only rows whose entity id is outside the
seen set, its output ids are duplicate-free, and every kept row is the
first row of the input carrying its entity id. -/
theorem dedupById_spec : ∀ (l : List RelResult) (seen : List (Option Str)),
    ((dedupById l seen).map (fun r => r.entity.id)).Nodup ∧
    (∀ r ∈ dedupById l seen, r.entity.id ∉ seen ∧
      l.find? (fun x => decide (x.entity.id = r.entity.id)) = some r)
  | [], seen => ⟨List.nodup_nil, fun r hr => absurd hr (List.not_mem_nil r)⟩
  | x :: rest, seen => by
    rw [dedupById]
    by_cases hx : x.entity.id ∈ seen
    · rw [if_pos hx]
      have ih := dedupById_spec rest seen
      refine ⟨ih.1, fun r hr => ?_⟩
      have h2 := ih.2 r hr
      refine ⟨h2.1, ?_⟩
      rw [List.find?_cons_of_neg _ ?_, h2.2]
      simp only [decide_eq_true_eq]
      intro heq
      exact h2.1 (heq ▸ hx)
    · rw [if_neg hx]
      have ih := dedupById_spec rest (x.entity.id :: seen)
      constructor
      · rw [List.map_cons]
        refine List.nodup_cons.mpr ⟨?_, ih.1⟩
        intro hmem
        rcases List.mem_map.mp hmem with ⟨r, hr, hid⟩
        exact (ih.2 r hr).1 (by rw [hid]; exact List.mem_cons_self _ _)
      · intro r hr
        rcases List.mem_cons.mp hr with rfl | hr'
        · refine ⟨hx, ?_⟩
          rw [List.find?_cons_of_pos _ (by simp)]
        · have h2 := ih.2 r hr'
          have hne : r.entity.id ≠ x.entity.id := fun heq =>
            h2.1 (by rw [heq]; exact List.mem_cons_self _ _)
          refine ⟨fun hs => h2.1 (List.mem_cons_of_mem _ hs), ?_⟩
          rw [List.find?_cons_of_neg _ ?_, h2.2]
          simp only [decide_eq_true_eq]
          exact fun h => hne h.symm

/-- Any entity id occurring in the input (and outside the seen set)
survives de-duplication. -/
theorem dedupById_mem_id : ∀ (l : List RelResult) (seen : List (Option Str))
    (v : Option Str), v ∉ seen → (∃ r ∈ l, r.entity.id = v) →
    ∃ r' ∈ dedupById l seen, r'.entity.id = v
  | [], _, v, _, hex => absurd hex (by simp)
  | x :: rest, seen, v, hv, hex => by
    rw [dedupById]
    by_cases hx : x.entity.id ∈ seen
    · rw [if_pos hx]
      rcases hex with ⟨r, hr, hid⟩
      rcases List.mem_cons.mp hr with rfl | hr'
      · exact absurd (hid ▸ hx) hv
      · exact dedupById_mem_id rest seen v hv ⟨r, hr', hid⟩
    · rw [if_neg hx]
      by_cases hxv : x.entity.id = v
      · exact ⟨x, List.mem_cons_self _ _, hxv⟩
      · rcases hex with ⟨r, hr, hid⟩
        rcases List.mem_cons.mp hr with rfl | hr'
        · exact absurd hid hxv
        · rcases dedupById_mem_id rest (x.entity.id :: seen) v
            (by
              intro hmem
              rcases List.mem_cons.mp hmem with h | h
              · exact hxv h.symm
              · exact hv h) ⟨r, hr', hid⟩ with ⟨r', hr'', hid'⟩
          exact ⟨r', List.mem_cons_of_mem _ hr'', hid'⟩

/-- One traversal loop step never removes visited entries and preserves
their freedom from duplicates, given that recursion at the remaining fuel
does. -/
theorem travStep_visited_nodup (cfg : TravCfg) (fuel cd : Nat) (cur : Str)
    (acc : TravState) (rel : Relationship) (ha : acc.visited.Nodup)
    (hrec : ∀ (cd' : Nat) (cur' : Str) (st' : TravState), st'.visited.Nodup →
      ((traverse cfg fuel cd' cur' st').visited).Nodup) :
    ((travStep cfg fuel cd cur acc rel).visited).Nodup := by
  rw [travStep]
  cases relStep cfg cur rel with
  | none => exact ha
  | some td =>
    obtain ⟨t, d⟩ := td
    dsimp only
    split
    · exact ha
    · cases dictFind Entity.id t cfg.entities with
      | none => exact ha
      | some te =>
        dsimp only
        have hacc1 : (if t ≠ cfg.startId then
            { acc with results := acc.results ++ [⟨te, rel, d, cd⟩] }
          else acc).visited = acc.visited := by
          split <;> rfl
        split
        · exact hrec (cd + 1) t _ (by rw [hacc1]; exact ha)
        · rw [hacc1]
          exact ha

/-- The traversal never acquires a duplicate in its visited set: an entity
already visited is never expanded again. -/
theorem traverse_visited_nodup :
    ∀ (fuel : Nat) (cfg : TravCfg) (cd : Nat) (cur : Str) (st : TravState),
      st.visited.Nodup → ((traverse cfg fuel cd cur st).visited).Nodup
  | 0, _, _, _, _, h => h
  | fuel + 1, cfg, cd, cur, st, h => by
    rw [traverse_succ]
    split
    · exact h
    · rename_i hguard
      have hcur : cur ∉ st.visited := fun hmem => hguard (Or.inr hmem)
      have hinit : (st.visited ++ [cur]).Nodup := by
        rw [(List.perm_append_singleton cur st.visited).nodup_iff]
        exact List.nodup_cons.mpr ⟨hcur, h⟩
      have hfold : ∀ (L : List Relationship) (acc : TravState), acc.visited.Nodup →
          ((L.foldl (travStep cfg fuel cd cur) acc).visited).Nodup := by
        intro L
        induction L with
        | nil => exact fun acc ha => ha
        | cons rel L' ih =>
          intro acc ha
          rw [List.foldl_cons]
          exact ih _ (travStep_visited_nodup cfg fuel cd cur acc rel ha
            (fun cd' cur' st' hst' => traverse_visited_nodup fuel cfg cd' cur' st' hst'))
      exact hfold cfg.relationships _ hinit

/-- C5 (amended): during a traversal run no entity is expanded more than
once (the visited set stays duplicate-free), and the final de-duplication
by neighbor entity id keeps, for each surviving id, exactly the first
occurrence of that id in the pre-deduplication result order — which is
depth-first discovery order, not necessarily the shallowest occurrence. -/
theorem traversal_no_reexpansion_first_kept (cfg : TravCfg) (fuel cd : Nat)
    (cur : Str) (st : TravState) (hv : st.visited.Nodup) (l : List RelResult) :
    ((traverse cfg fuel cd cur st).visited).Nodup ∧
    ((dedupById l []).map (fun r => r.entity.id)).Nodup ∧
    (∀ r ∈ dedupById l [],
      l.find? (fun x => decide (x.entity.id = r.entity.id)) = some r) :=
  ⟨traverse_visited_nodup fuel cfg cd cur st hv,
   (dedupById_spec l []).1,
   fun r hr => ((dedupById_spec l []).2 r hr).2⟩

/-- C5 witness: the theorem applied to the depth-2 fixture run. -/
theorem traversal_no_reexpansion_first_kept_witness :
    ((traverse cfg1 3 1 (str "e") ⟨[], []⟩).visited).Nodup ∧
    ((dedupById (traverse cfg1 3 1 (str "e") ⟨[], []⟩).results []).map
      (fun r => r.entity.id)).Nodup ∧
    (∀ r ∈ dedupById (traverse cfg1 3 1 (str "e") ⟨[], []⟩).results [],
      (traverse cfg1 3 1 (str "e") ⟨[], []⟩).results.find?
        (fun x => decide (x.entity.id = r.entity.id)) = some r) :=
  traversal_no_reexpansion_first_kept cfg1 3 1 (str "e") ⟨[], []⟩ (by decide)
    (traverse cfg1 3 1 (str "e") ⟨[], []⟩).results

/-- C5 counterexample: on the fixture cycle (`e → a → b` plus the shortcut
`e → b`, direction `both`, depth 2) the pre-deduplication results contain
neighbor `b` at depth 1 (via the shortcut), but the occurrence kept by the
first-occurrence de-duplication is the depth-2 one discovered earlier in
depth-first order — refuting the claim that the kept occurrence is the
shallowest one. -/
theorem traversal_kept_not_shallowest :
    (⟨bN, r3, str "outgoing", 1⟩ : RelResult) ∈
      (traverse cfg1 3 1 (str "e") ⟨[], []⟩).results ∧
    findRelatedEntities s1 (str "e") (str "both") none 2 none =
      .ok [⟨aN, r1, str "outgoing", 1⟩, ⟨bN, r2, str "outgoing", 2⟩] := by
  with_unfolding_all decide

/-- A found dict entry carries the looked-up key as its id and belongs to
the dict. -/
theorem dictFind_entity_id {t : Str} {l : List Entity} {te : Entity}
    (h : dictFind Entity.id t l = some te) : te.id = some t ∧ te ∈ l := by
  refine ⟨?_, List.mem_of_find?_eq_some h⟩
  have := List.find?_some h
  simpa using this


/-- At the depth boundary the loop body only appends the collected row. -/
theorem travStep_at_depth (cfg : TravCfg) (fuel cd : Nat) (cur : Str)
    (hcd : ¬ cd < cfg.depth) (acc : TravState) (rel : Relationship) :
    travStep cfg fuel cd cur acc rel =
      (match collectAtDepth cfg cur cd rel with
       | none => acc
       | some item => ⟨acc.visited, acc.results ++ [item]⟩) := by
  rw [travStep, collectAtDepth]
  cases hrs : relStep cfg cur rel with
  | none => rfl
  | some td =>
    obtain ⟨t, d⟩ := td
    dsimp only
    by_cases hte : t.isEmpty = true
    · rw [if_pos hte, if_pos hte]
    · rw [if_neg hte, if_neg hte]
      cases hdf : dictFind Entity.id t cfg.entities with
      | none => rfl
      | some te =>
        dsimp only
        rw [if_neg hcd]
        by_cases hts : t ≠ cfg.startId
        · rw [if_pos hts, if_pos hts]
        · rw [if_neg hts, if_neg hts]

/-- At the depth boundary the whole relationship scan appends exactly the
collected rows, in relationship order. -/
theorem foldl_travStep_at_depth (cfg : TravCfg) (fuel cd : Nat) (cur : Str)
    (hcd : ¬ cd < cfg.depth) :
    ∀ (L : List Relationship) (acc : TravState),
      L.foldl (travStep cfg fuel cd cur) acc =
        ⟨acc.visited, acc.results ++ L.filterMap (collectAtDepth cfg cur cd)⟩
  | [], acc => by simp
  | rel :: L', acc => by
    rw [List.foldl_cons, List.filterMap_cons,
        travStep_at_depth cfg fuel cd cur hcd acc rel]
    cases hc : collectAtDepth cfg cur cd rel with
    | none =>
      dsimp only
      rw [foldl_travStep_at_depth cfg fuel cd cur hcd L' acc]
    | some item =>
      dsimp only
      rw [foldl_travStep_at_depth cfg fuel cd cur hcd L'
        ⟨acc.visited, acc.results ++ [item]⟩]
      simp

/-- With direction `both` and no project/type filter, the direction match
reduces to: the neighbor is the target when the edge leaves `cur`, else
the source when the edge enters `cur`. -/
theorem relStep_both (cfg : TravCfg) (cur : Str) (rel : Relationship)
    (hdir : cfg.direction = str "both") (hpt : cfg.projectId = none)
    (hrt : cfg.relationshipType = none) :
    relStep cfg cur rel =
      (if rel.sourceId = cur then some (rel.targetId, str "outgoing")
       else if rel.targetId = cur then some (rel.sourceId, str "incoming")
       else none) := by
  rw [relStep, hdir, hpt, hrt]
  simp [optTruthy]

/-- Eliminator for a collected row under direction `both` with no
filters. -/
theorem collect_both_elim (cfg : TravCfg) (cur : Str) (cd : Nat)
    (rel : Relationship) (item : RelResult)
    (hdir : cfg.direction = str "both") (hpt : cfg.projectId = none)
    (hrt : cfg.relationshipType = none)
    (hcol : collectAtDepth cfg cur cd rel = some item) :
    item.depth = cd ∧ item.relationship = rel ∧ item.entity ∈ cfg.entities ∧
    ∃ t, item.entity.id = some t ∧ t ≠ cfg.startId ∧
      dictFind Entity.id t cfg.entities = some item.entity ∧
      ((rel.sourceId = cur ∧ rel.targetId = t) ∨
       (rel.targetId = cur ∧ rel.sourceId = t)) := by
  rw [collectAtDepth, relStep_both cfg cur rel hdir hpt hrt] at hcol
  by_cases hsrc : rel.sourceId = cur
  · rw [if_pos hsrc] at hcol
    dsimp only at hcol
    by_cases hte : rel.targetId.isEmpty = true
    · rw [if_pos hte] at hcol
      exact absurd hcol (by simp)
    · rw [if_neg hte] at hcol
      cases hdf : dictFind Entity.id rel.targetId cfg.entities with
      | none => rw [hdf] at hcol; exact absurd hcol (by simp)
      | some te =>
        rw [hdf] at hcol
        dsimp only at hcol
        by_cases hts : rel.targetId ≠ cfg.startId
        · rw [if_pos hts, Option.some.injEq] at hcol
          subst hcol
          refine ⟨rfl, rfl, (dictFind_entity_id hdf).2, rel.targetId,
            (dictFind_entity_id hdf).1, hts, hdf, Or.inl ⟨hsrc, rfl⟩⟩
        · rw [if_neg hts] at hcol
          exact absurd hcol (by simp)
  · rw [if_neg hsrc] at hcol
    by_cases htgt : rel.targetId = cur
    · rw [if_pos htgt] at hcol
      dsimp only at hcol
      by_cases hte : rel.sourceId.isEmpty = true
      · rw [if_pos hte] at hcol
        exact absurd hcol (by simp)
      · rw [if_neg hte] at hcol
        cases hdf : dictFind Entity.id rel.sourceId cfg.entities with
        | none => rw [hdf] at hcol; exact absurd hcol (by simp)
        | some te =>
          rw [hdf] at hcol
          dsimp only at hcol
          by_cases hts : rel.sourceId ≠ cfg.startId
          · rw [if_pos hts, Option.some.injEq] at hcol
            subst hcol
            refine ⟨rfl, rfl, (dictFind_entity_id hdf).2, rel.sourceId,
              (dictFind_entity_id hdf).1, hts, hdf, Or.inr ⟨htgt, rfl⟩⟩
          · rw [if_neg hts] at hcol
            exact absurd hcol (by simp)
    · rw [if_neg htgt] at hcol
      exact absurd hcol (by simp)

/-- Introduction rule for a collected outgoing row under direction `both`
with no filters. -/
theorem collect_both_intro_out (cfg : TravCfg) (cur : Str) (cd : Nat)
    (rel : Relationship) (t : Str) (te : Entity)
    (hdir : cfg.direction = str "both") (hpt : cfg.projectId = none)
    (hrt : cfg.relationshipType = none)
    (hsrc : rel.sourceId = cur) (htgt : rel.targetId = t)
    (ht : t ≠ []) (hts : t ≠ cfg.startId)
    (hdf : dictFind Entity.id t cfg.entities = some te) :
    collectAtDepth cfg cur cd rel = some ⟨te, rel, str "outgoing", cd⟩ := by
  rw [collectAtDepth, relStep_both cfg cur rel hdir hpt hrt, if_pos hsrc]
  dsimp only
  rw [htgt, if_neg (by simp [isEmpty_false_of_ne_nil ht]), hdf]
  dsimp only
  rw [if_pos hts]

/-- Introduction rule for a collected incoming row under direction `both`
with no filters. -/
theorem collect_both_intro_in (cfg : TravCfg) (cur : Str) (cd : Nat)
    (rel : Relationship) (t : Str) (te : Entity)
    (hdir : cfg.direction = str "both") (hpt : cfg.projectId = none)
    (hrt : cfg.relationshipType = none)
    (hsrc : rel.sourceId ≠ cur) (htgt : rel.targetId = cur) (hsrct : rel.sourceId = t)
    (ht : t ≠ []) (hts : t ≠ cfg.startId)
    (hdf : dictFind Entity.id t cfg.entities = some te) :
    collectAtDepth cfg cur cd rel = some ⟨te, rel, str "incoming", cd⟩ := by
  rw [collectAtDepth, relStep_both cfg cur rel hdir hpt hrt, if_neg hsrc, if_pos htgt]
  dsimp only
  rw [hsrct, if_neg (by simp [isEmpty_false_of_ne_nil ht]), hdf]
  dsimp only
  rw [if_pos hts]


/-- C4: at depth 1 with direction `both` and no filters, the related-
entities endpoint succeeds on a present entity (with duplicate-free
relationship endpoints, as pydantic guarantees) and returns exactly the
set of stored entities directly connected to `e` by some relationship as
source or target — each neighbor id exactly once, `e` itself excluded
(also on cycles through `e`), every row carrying a stored entity at
depth 1. -/
theorem findRelated_depth1_neighbors (s : Store) (e : Str)
    (he : e ≠ []) (hp : (dictFind Entity.id e s.entities).isSome)
    (hrel : ∀ r ∈ s.relationships, r.sourceId ≠ [] ∧ r.targetId ≠ []) :
    ∃ res, findRelatedEntities s e (str "both") none 1 none = .ok res ∧
      (res.map (fun r => r.entity.id)).Nodup ∧
      (∀ x : Str, (some x ∈ res.map (fun r => r.entity.id)) ↔
        (x ≠ e ∧ (dictFind Entity.id x s.entities).isSome ∧
          ∃ rel ∈ s.relationships,
            (rel.sourceId = e ∧ rel.targetId = x) ∨
            (rel.targetId = e ∧ rel.sourceId = x))) ∧
      (∀ r ∈ res, r.entity ∈ s.entities ∧ r.depth = 1) := by
  have hval : validateEntityId e s.entities = none := by
    rw [validateEntityId, isEmpty_false_of_ne_nil he]
    simp [isNone_false_of_isSome hp]
  have htrav : traverse (travCfgBoth1 s e) (1 + 1) 1 e ⟨[], []⟩ =
      ⟨[e], (travCfgBoth1 s e).relationships.filterMap
        (collectAtDepth (travCfgBoth1 s e) e 1)⟩ := by
    rw [traverse_succ, if_neg ?_, foldl_travStep_at_depth (travCfgBoth1 s e) 1 1 e ?_]
    · simp
    · simp [travCfgBoth1]
    · simp [travCfgBoth1]
  have hcall : findRelatedEntities s e (str "both") none 1 none =
      .ok (dedupById ((travCfgBoth1 s e).relationships.filterMap
        (collectAtDepth (travCfgBoth1 s e) e 1)) []) := by
    rw [findRelatedEntities, hval]
    dsimp only
    rw [if_neg (by decide), if_neg (by decide)]
    show Except.ok
        (dedupById (traverse (travCfgBoth1 s e) (1 + 1) 1 e ⟨[], []⟩).results []) = _
    rw [htrav]
  refine ⟨dedupById ((travCfgBoth1 s e).relationships.filterMap
    (collectAtDepth (travCfgBoth1 s e) e 1)) [], hcall, (dedupById_spec _ []).1, ?_, ?_⟩
  · intro x
    constructor
    · intro hx
      rcases List.mem_map.mp hx with ⟨r', hr', hid⟩
      have hfind := ((dedupById_spec _ []).2 r' hr').2
      have hrL := List.mem_of_find?_eq_some hfind
      rcases List.mem_filterMap.mp hrL with ⟨rel, hrelmem, hcol⟩
      rcases collect_both_elim (travCfgBoth1 s e) e 1 rel r' rfl rfl rfl hcol with
        ⟨hdep, hrel', hentmem, t, hidt, hts, hdf, hcase⟩
      have htx : t = x := by
        rw [hidt] at hid
        exact Option.some.inj hid
      subst htx
      refine ⟨hts, ?_, rel, hrelmem, hcase⟩
      have hdf' : dictFind Entity.id t s.entities = some r'.entity := hdf
      simp [hdf']
    · rintro ⟨hxe, hxs, rel, hrelmem, hcase⟩
      obtain ⟨te, hte⟩ := Option.isSome_iff_exists.mp hxs
      have hx0 : x ≠ [] := by
        rcases hcase with ⟨hs, ht⟩ | ⟨ht, hs⟩
        · exact ht ▸ (hrel rel hrelmem).2
        · exact hs ▸ (hrel rel hrelmem).1
      rcases hcase with ⟨hs, ht⟩ | ⟨ht, hs⟩
      · have hcol := collect_both_intro_out (travCfgBoth1 s e) e 1 rel x te
          rfl rfl rfl hs ht hx0 hxe hte
        have hmemL : (⟨te, rel, str "outgoing", 1⟩ : RelResult) ∈
            (travCfgBoth1 s e).relationships.filterMap
              (collectAtDepth (travCfgBoth1 s e) e 1) :=
          List.mem_filterMap.mpr ⟨rel, hrelmem, hcol⟩
        have hid : (⟨te, rel, str "outgoing", 1⟩ : RelResult).entity.id = some x :=
          (dictFind_entity_id hte).1
        rcases dedupById_mem_id _ [] (some x) (List.not_mem_nil _) ⟨_, hmemL, hid⟩ with
          ⟨r', hr', hid'⟩
        exact List.mem_map.mpr ⟨r', hr', hid'⟩
      · have hsne : rel.sourceId ≠ e := by
          rw [hs]
          exact hxe
        have hcol := collect_both_intro_in (travCfgBoth1 s e) e 1 rel x te
          rfl rfl rfl hsne ht hs hx0 hxe hte
        have hmemL : (⟨te, rel, str "incoming", 1⟩ : RelResult) ∈
            (travCfgBoth1 s e).relationships.filterMap
              (collectAtDepth (travCfgBoth1 s e) e 1) :=
          List.mem_filterMap.mpr ⟨rel, hrelmem, hcol⟩
        have hid : (⟨te, rel, str "incoming", 1⟩ : RelResult).entity.id = some x :=
          (dictFind_entity_id hte).1
        rcases dedupById_mem_id _ [] (some x) (List.not_mem_nil _) ⟨_, hmemL, hid⟩ with
          ⟨r', hr', hid'⟩
        exact List.mem_map.mpr ⟨r', hr', hid'⟩
  · intro r hr
    have hfind := ((dedupById_spec _ []).2 r hr).2
    have hrL := List.mem_of_find?_eq_some hfind
    rcases List.mem_filterMap.mp hrL with ⟨rel, hrelmem, hcol⟩
    have helim := collect_both_elim (travCfgBoth1 s e) e 1 rel r rfl rfl rfl hcol
    exact ⟨helim.2.2.1, helim.1⟩

/-- C4 witness: on the fixture store `s1`, the depth-1 neighbors of `e`
are exactly `a` (via `e → a`) and `b` (via the shortcut `e → b`), each
once. -/
theorem findRelated_depth1_neighbors_witness :
    (str "e" ≠ ([] : Str) ∧ (dictFind Entity.id (str "e") s1.entities).isSome ∧
     (∀ r ∈ s1.relationships, r.sourceId ≠ [] ∧ r.targetId ≠ [])) ∧
    (∃ res, findRelatedEntities s1 (str "e") (str "both") none 1 none = .ok res ∧
      (res.map (fun r => r.entity.id)).Nodup ∧
      (∀ x : Str, (some x ∈ res.map (fun r => r.entity.id)) ↔
        (x ≠ str "e" ∧ (dictFind Entity.id x s1.entities).isSome ∧
          ∃ rel ∈ s1.relationships,
            (rel.sourceId = str "e" ∧ rel.targetId = x) ∨
            (rel.targetId = str "e" ∧ rel.sourceId = x))) ∧
      (∀ r ∈ res, r.entity ∈ s1.entities ∧ r.depth = 1)) :=
  ⟨⟨by decide, by decide, by decide⟩,
   findRelated_depth1_neighbors s1 (str "e") (by decide) (by decide) (by decide)⟩

end KG
